import Mathlib

/-!
# Verification of the jamesmillercvForecast pipeline

Shallow embedding of `jamesmillercvForecast.py` (and the shared tail of
`append_to_sheets.py`): the data loader, the SARIMAX order grid search,
the bias-corrected period forecaster, the period catalog, and the
reporter/logger row assembly.

Modelling conventions:
* Dates (normalized pandas `Timestamp`s, midnight) are integers counting
  days, so `(a - b).days = a - b`.
* Observed counts, residuals, predictions and AIC scores are rationals,
  modelling the exact real arithmetic of the source.
* A dataframe indexed by date is a `List (ℤ × ℚ)` of (date, count) rows
  in index order.
* The fitted SARIMAX model is opaque numerics; it is abstracted as a
  `FitResults` record of its observable outputs (`get_forecast`
  predicted mean / confidence-bound step functions and the in-sample
  residual series).  `predictedMean i` is the prediction for the `i`-th
  forecast step, i.e. for the date `latestObserved + 1 + i`: the horizon
  of `get_forecast` always starts the day after the end of the sample.
* A fit attempt that raises is `none` (`try`/`except: continue`).
-/

/-- Date index maximum `df.index.max()` of a dataframe (line 90). -/
def latestObserved (df : List (ℤ × ℚ)) : ℤ :=
  match df.map Prod.fst with
  | [] => 0
  | x :: xs => xs.foldl max x

/-- `forecast_days` as computed on lines 91–92:
`(end_date - last_observed).days`, clamped below by `0`. -/
def forecast_days_of (df : List (ℤ × ℚ)) (end_date : ℤ) : ℤ :=
  max (end_date - latestObserved df) 0

/-- `df.loc[(df.index >= start_date) & (df.index <= end_date), "Actual Views"].sum()`
(line 94). -/
def actual_period (df : List (ℤ × ℚ)) (start_date end_date : ℤ) : ℚ :=
  ((df.filter (fun p => decide (start_date ≤ p.1) && decide (p.1 ≤ end_date))).map
    Prod.snd).sum

/-- Observable outputs of the fitted SARIMAX model (`results`, line 76).
`predictedMean i` / `confLower i` / `confUpper i` are
`get_forecast(...).predicted_mean` and the two `conf_int()` columns at
forecast step `i` (0-indexed; step `i` is the date `latestObserved + 1 + i`,
since a statsmodels forecast horizon begins immediately after the last
in-sample date).  `resid` is the in-sample residual series (line 81). -/
structure FitResults where
  predictedMean : ℕ → ℚ
  confLower : ℕ → ℚ
  confUpper : ℕ → ℚ
  resid : List ℚ

/-- `bias_daily = residuals.mean()` (line 82). -/
def bias_daily (resid : List ℚ) : ℚ :=
  resid.sum / (resid.length : ℚ)

/-- The four scalars returned by `forecast_period` (line 111). -/
structure PeriodResult where
  Actual : ℚ
  Forecast : ℚ
  CILower : ℚ
  CIUpper : ℚ
  deriving DecidableEq, Repr

/-- `forecast_period(start_date, end_date)` (lines 88–111): split the
period at the last observed date; sum observed counts; if any future
days remain, request that many forecast steps, subtract the daily bias
from every predicted mean and both confidence-bound series, and add
their sums to the observed total. -/
def forecast_period (df : List (ℤ × ℚ)) (results : FitResults)
    (start_date end_date : ℤ) : PeriodResult :=
  let last_observed := latestObserved df
  let forecast_days := max (end_date - last_observed) 0
  let actual := actual_period df start_date end_date
  if 0 < forecast_days then
    let n := forecast_days.toNat
    let bias := bias_daily results.resid
    let meanSum := ((List.range n).map (fun i => results.predictedMean i - bias)).sum
    let lowerSum := ((List.range n).map (fun i => results.confLower i - bias)).sum
    let upperSum := ((List.range n).map (fun i => results.confUpper i - bias)).sum
    ⟨actual, actual + meanSum, actual + lowerSum, actual + upperSum⟩
  else
    ⟨actual, actual, actual, actual⟩

lemma sum_map_sub_const (f : ℕ → ℚ) (b : ℚ) (n : ℕ) :
    ((List.range n).map (fun i => f i - b)).sum =
      ((List.range n).map f).sum - n * b := by
  induction n with
  | zero => simp
  | succ k ih =>
    rw [List.range_succ, List.map_append, List.map_append, List.sum_append,
      List.sum_append, ih]
    simp only [List.map_cons, List.map_nil, List.sum_cons, List.sum_nil]
    push_cast
    ring

/-- C1: `forecast_period` computes
`forecast_days = max(0, (end − latest_observed).days)`, and whenever the
period's end does not exceed the latest observed date this is `0` and the
returned point forecast, lower bound and upper bound all equal
`actual_period`, the sum of observed counts in `[start, end]`. -/
theorem C1_observed_period_exact (df : List (ℤ × ℚ)) (m : FitResults)
    (s e : ℤ) (h : e ≤ latestObserved df) :
    (∀ e', forecast_days_of df e' = max 0 (e' - latestObserved df)) ∧
    forecast_days_of df e = 0 ∧
    forecast_period df m s e =
      ⟨actual_period df s e, actual_period df s e,
       actual_period df s e, actual_period df s e⟩ := by
  have h0 : max (e - latestObserved df) 0 = 0 :=
    max_eq_right (sub_nonpos.mpr h)
  refine ⟨fun e' => max_comm _ _, h0, ?_⟩
  simp only [forecast_period, h0, lt_irrefl, if_false]

theorem C1_witness :
    ((1:ℤ) ≤ latestObserved [(0, 3), (1, 4)]) ∧
    ((∀ e', forecast_days_of [(0, 3), (1, 4)] e' =
        max 0 (e' - latestObserved [(0, 3), (1, 4)])) ∧
     forecast_days_of [(0, 3), (1, 4)] 1 = 0 ∧
     forecast_period [(0, 3), (1, 4)] ⟨fun _ => 10, fun _ => 8, fun _ => 12, []⟩ 0 1 =
       ⟨actual_period [(0, 3), (1, 4)] 0 1, actual_period [(0, 3), (1, 4)] 0 1,
        actual_period [(0, 3), (1, 4)] 0 1, actual_period [(0, 3), (1, 4)] 0 1⟩) :=
  ⟨by norm_num [latestObserved],
   C1_observed_period_exact [(0, 3), (1, 4)]
     ⟨fun _ => 10, fun _ => 8, fun _ => 12, []⟩ 0 1
     (by norm_num [latestObserved])⟩

/-- C2: when `forecast_days > 0` the script requests exactly
`forecast_days` steps from the fitted model — a horizon that starts the
day after the last observed date (step `i` of `FitResults` is the date
`latestObserved + 1 + i`), not at the period's start — and the total is
`actual_period` plus the sum of all bias-corrected step predictions.
The forecast component is independent of the period's start, so
predictions for days strictly before the start (when the start lies
beyond the observed data) are folded into the total, never excluded. -/
theorem C2_horizon_from_last_observed (df : List (ℤ × ℚ)) (m : FitResults)
    (s e : ℤ) (h : 0 < forecast_days_of df e) :
    (forecast_period df m s e).Forecast =
      actual_period df s e +
        ((List.range (forecast_days_of df e).toNat).map
          (fun i => m.predictedMean i - bias_daily m.resid)).sum ∧
    ∀ s', (forecast_period df m s' e).Forecast - actual_period df s' e =
        (forecast_period df m s e).Forecast - actual_period df s e := by
  have hcond : 0 < max (e - latestObserved df) 0 := h
  constructor
  · simp only [forecast_period, if_pos hcond, forecast_days_of]
  · intro s'
    simp only [forecast_period, if_pos hcond, add_sub_cancel_left]

theorem C2_witness :
    (0 < forecast_days_of [(0, 3), (1, 4)] 3) ∧
    ((forecast_period [(0, 3), (1, 4)] ⟨fun _ => 10, fun _ => 8, fun _ => 12, [2, 4]⟩ 0 3).Forecast =
      actual_period [(0, 3), (1, 4)] 0 3 +
        ((List.range (forecast_days_of [(0, 3), (1, 4)] 3).toNat).map
          (fun i => (⟨fun _ => 10, fun _ => 8, fun _ => 12, [2, 4]⟩ : FitResults).predictedMean i -
            bias_daily (⟨fun _ => 10, fun _ => 8, fun _ => 12, [2, 4]⟩ : FitResults).resid)).sum ∧
     ∀ s', (forecast_period [(0, 3), (1, 4)] ⟨fun _ => 10, fun _ => 8, fun _ => 12, [2, 4]⟩ s' 3).Forecast -
            actual_period [(0, 3), (1, 4)] s' 3 =
          (forecast_period [(0, 3), (1, 4)] ⟨fun _ => 10, fun _ => 8, fun _ => 12, [2, 4]⟩ 0 3).Forecast -
            actual_period [(0, 3), (1, 4)] 0 3) :=
  ⟨by norm_num [forecast_days_of, latestObserved],
   C2_horizon_from_last_observed [(0, 3), (1, 4)]
     ⟨fun _ => 10, fun _ => 8, fun _ => 12, [2, 4]⟩ 0 3
     (by norm_num [forecast_days_of, latestObserved])⟩

/-- C4: the bias correction is the arithmetic mean of the full
in-sample residual series, a single scalar; for `forecast_days > 0` it
is subtracted from every one of the `forecast_days` predicted means and
from every entry of both confidence-bound series before those series
are summed, so each period total carries exactly
`forecast_days * bias` less than the raw aggregated series. -/
theorem C4_bias_subtracted_everywhere (df : List (ℤ × ℚ)) (m : FitResults)
    (s e : ℤ) (h : 0 < forecast_days_of df e) :
    bias_daily m.resid = m.resid.sum / (m.resid.length : ℚ) ∧
    (forecast_period df m s e).Forecast =
      actual_period df s e +
        (((List.range (forecast_days_of df e).toNat).map m.predictedMean).sum -
          ((forecast_days_of df e).toNat : ℚ) * bias_daily m.resid) ∧
    (forecast_period df m s e).CILower =
      actual_period df s e +
        (((List.range (forecast_days_of df e).toNat).map m.confLower).sum -
          ((forecast_days_of df e).toNat : ℚ) * bias_daily m.resid) ∧
    (forecast_period df m s e).CIUpper =
      actual_period df s e +
        (((List.range (forecast_days_of df e).toNat).map m.confUpper).sum -
          ((forecast_days_of df e).toNat : ℚ) * bias_daily m.resid) := by
  have hcond : 0 < max (e - latestObserved df) 0 := h
  refine ⟨rfl, ?_, ?_, ?_⟩ <;>
    simp only [forecast_period, if_pos hcond, forecast_days_of,
      sum_map_sub_const]

theorem C4_witness :
    (0 < forecast_days_of [(0, 3), (1, 4)] 3) ∧
    (bias_daily (⟨fun _ => 10, fun _ => 8, fun _ => 12, [2, 4]⟩ : FitResults).resid =
      (⟨fun _ => 10, fun _ => 8, fun _ => 12, [2, 4]⟩ : FitResults).resid.sum /
        ((⟨fun _ => 10, fun _ => 8, fun _ => 12, [2, 4]⟩ : FitResults).resid.length : ℚ) ∧
     (forecast_period [(0, 3), (1, 4)] ⟨fun _ => 10, fun _ => 8, fun _ => 12, [2, 4]⟩ 0 3).Forecast =
      actual_period [(0, 3), (1, 4)] 0 3 +
        (((List.range (forecast_days_of [(0, 3), (1, 4)] 3).toNat).map
            (⟨fun _ => 10, fun _ => 8, fun _ => 12, [2, 4]⟩ : FitResults).predictedMean).sum -
          ((forecast_days_of [(0, 3), (1, 4)] 3).toNat : ℚ) *
            bias_daily (⟨fun _ => 10, fun _ => 8, fun _ => 12, [2, 4]⟩ : FitResults).resid) ∧
     (forecast_period [(0, 3), (1, 4)] ⟨fun _ => 10, fun _ => 8, fun _ => 12, [2, 4]⟩ 0 3).CILower =
      actual_period [(0, 3), (1, 4)] 0 3 +
        (((List.range (forecast_days_of [(0, 3), (1, 4)] 3).toNat).map
            (⟨fun _ => 10, fun _ => 8, fun _ => 12, [2, 4]⟩ : FitResults).confLower).sum -
          ((forecast_days_of [(0, 3), (1, 4)] 3).toNat : ℚ) *
            bias_daily (⟨fun _ => 10, fun _ => 8, fun _ => 12, [2, 4]⟩ : FitResults).resid) ∧
     (forecast_period [(0, 3), (1, 4)] ⟨fun _ => 10, fun _ => 8, fun _ => 12, [2, 4]⟩ 0 3).CIUpper =
      actual_period [(0, 3), (1, 4)] 0 3 +
        (((List.range (forecast_days_of [(0, 3), (1, 4)] 3).toNat).map
            (⟨fun _ => 10, fun _ => 8, fun _ => 12, [2, 4]⟩ : FitResults).confUpper).sum -
          ((forecast_days_of [(0, 3), (1, 4)] 3).toNat : ℚ) *
            bias_daily (⟨fun _ => 10, fun _ => 8, fun _ => 12, [2, 4]⟩ : FitResults).resid)) :=
  ⟨by norm_num [forecast_days_of, latestObserved],
   C4_bias_subtracted_everywhere [(0, 3), (1, 4)]
     ⟨fun _ => 10, fun _ => 8, fun _ => 12, [2, 4]⟩ 0 3
     (by norm_num [forecast_days_of, latestObserved])⟩

/-! ## Order selection (lines 36–62) -/

/-- `s = 7  # weekly seasonality` (line 38). -/
def sPeriod : ℕ := 7

/-- A non-seasonal order candidate `(p, d, q)`. -/
abbrev SarimaOrder := ℕ × ℕ × ℕ

/-- A seasonal candidate `(P, D, Q)` before the period is attached. -/
abbrev SeasonalTriple := ℕ × ℕ × ℕ

/-- A full seasonal order `(P, D, Q, s)`. -/
abbrev SeasonalOrder := ℕ × ℕ × ℕ × ℕ

/-- `itertools.product` of two lists, in itertools (outer-major) order. -/
def listProd {α β : Type} (xs : List α) (ys : List β) : List (α × β) :=
  xs.flatMap (fun x => ys.map (fun y => (x, y)))

/-- `pdq = list(itertools.product(p, d, q))` with `p = d = q = range(0, 3)`
(lines 36, 39). -/
def pdq : List SarimaOrder :=
  listProd (List.range 3) (listProd (List.range 3) (List.range 3))

/-- `seasonal_pdq = list(itertools.product(P, D, Q))` with
`P = D = Q = range(0, 2)` (lines 37, 40). -/
def seasonal_pdq : List SeasonalTriple :=
  listProd (List.range 2) (listProd (List.range 2) (List.range 2))

/-- The candidates visited by the nested loops (lines 46–47): outer loop
over `pdq`, inner loop over `seasonal_pdq`. -/
def candidates : List (SarimaOrder × SeasonalTriple) :=
  listProd pdq seasonal_pdq

/-- Attach the fixed weekly period, as on lines 52 and 60:
`(seasonal_candidate[0], seasonal_candidate[1], seasonal_candidate[2], s)`. -/
def withPeriod (sc : SeasonalTriple) : SeasonalOrder :=
  (sc.1, sc.2.1, sc.2.2, sPeriod)

/-- The three tracking variables of the search (lines 42–44); `none` for
`best_aic` is the initial `float("inf")`, `none` for the orders is the
initial `None`. -/
structure SearchState where
  best_aic : Option ℚ
  best_order : Option SarimaOrder
  best_seasonal_order : Option SeasonalOrder
  deriving DecidableEq, Repr

/-- `results_test.aic < best_aic` (line 57), with `best_aic = none`
standing for `float("inf")`. -/
def aicLtOpt (a : ℚ) : Option ℚ → Bool
  | none => true
  | some b => decide (a < b)

/-- One iteration of the loop body (lines 48–62).  `fit o so` models
`SARIMAX(df["Actual Views"], order=o, seasonal_order=so, ...).fit(disp=False).aic`,
with `none` when the fit raises (`except: continue`).  A successful fit
replaces the incumbent only when its AIC is strictly smaller. -/
def gridStep (fit : SarimaOrder → SeasonalOrder → Option ℚ)
    (st : SearchState) (c : SarimaOrder × SeasonalTriple) : SearchState :=
  match fit c.1 (withPeriod c.2) with
  | none => st
  | some a =>
    if aicLtOpt a st.best_aic then ⟨some a, some c.1, some (withPeriod c.2)⟩
    else st

/-- The whole grid search (lines 42–62). -/
def gridSearch (fit : SarimaOrder → SeasonalOrder → Option ℚ) : SearchState :=
  candidates.foldl (gridStep fit) ⟨none, none, none⟩

/-- Lines 69–76: the script passes `best_order` and `best_seasonal_order`
straight into the final `SARIMAX` constructor; nothing between the search
loop and the final fit checks that any candidate succeeded. -/
def finalFitOrders (fit : SarimaOrder → SeasonalOrder → Option ℚ) :
    Option SarimaOrder × Option SeasonalOrder :=
  ((gridSearch fit).best_order, (gridSearch fit).best_seasonal_order)

/-- Specification recursion for the search: the first candidate (in list
order) attaining the minimal AIC among successful fits, with that AIC. -/
def selectFirstMin (fit : SarimaOrder → SeasonalOrder → Option ℚ) :
    List (SarimaOrder × SeasonalTriple) →
      Option (ℚ × (SarimaOrder × SeasonalTriple))
  | [] => none
  | c :: cs =>
    match fit c.1 (withPeriod c.2), selectFirstMin fit cs with
    | none, r => r
    | some a, none => some (a, c)
    | some a, some (b, c') => if b < a then some (b, c') else some (a, c)

/-- Merging a selection result into a running state, mirroring one
conditional update of the loop. -/
def applyBest (st : SearchState) :
    Option (ℚ × (SarimaOrder × SeasonalTriple)) → SearchState
  | none => st
  | some (a, c) =>
    if aicLtOpt a st.best_aic then ⟨some a, some c.1, some (withPeriod c.2)⟩
    else st

lemma foldl_gridStep_eq (fit : SarimaOrder → SeasonalOrder → Option ℚ)
    (l : List (SarimaOrder × SeasonalTriple)) : ∀ st : SearchState,
    l.foldl (gridStep fit) st = applyBest st (selectFirstMin fit l) := by
  induction l with
  | nil => intro st; rfl
  | cons c cs ih =>
    intro st
    rw [List.foldl_cons, ih]
    rcases hf : fit c.1 (withPeriod c.2) with _ | a
    · simp only [selectFirstMin, hf, gridStep]
    · rcases hr : selectFirstMin fit cs with _ | ⟨b, c'⟩
      · simp only [selectFirstMin, hf, hr, gridStep, applyBest]
      · simp only [selectFirstMin, hf, hr, gridStep]
        rcases hst : st.best_aic with _ | v
        · by_cases hba : b < a
          · simp [applyBest, aicLtOpt, hst, hba]
          · simp [applyBest, aicLtOpt, hst, hba, not_lt.mp hba]
        · by_cases hav : a < v
          · by_cases hba : b < a
            · simp [applyBest, aicLtOpt, hst, hav, hba, hba.trans hav]
            · simp [applyBest, aicLtOpt, hst, hav, hba]
          · by_cases hba : b < a
            · simp [applyBest, aicLtOpt, hst, hav, hba]
            · have hbv : ¬ b < v := fun hb =>
                hba (hb.trans_le (not_lt.mp hav))
              simp [applyBest, aicLtOpt, hst, hav, hba, hbv]

lemma selectFirstMin_none (fit : SarimaOrder → SeasonalOrder → Option ℚ) :
    ∀ l, selectFirstMin fit l = none →
      ∀ c ∈ l, fit c.1 (withPeriod c.2) = none := by
  intro l
  induction l with
  | nil => intro _ c hc; cases hc
  | cons d ds ih =>
    intro h c hc
    rcases hf : fit d.1 (withPeriod d.2) with _ | ad <;>
      rcases hr : selectFirstMin fit ds with _ | ⟨b, c'⟩ <;>
        simp only [selectFirstMin, hf, hr] at h
    · rcases List.mem_cons.mp hc with rfl | hc'
      · exact hf
      · exact ih hr c hc'
    · cases h
    · cases h
    · split at h <;> cases h

lemma selectFirstMin_spec (fit : SarimaOrder → SeasonalOrder → Option ℚ) :
    ∀ l a c, selectFirstMin fit l = some (a, c) →
      c ∈ l ∧ fit c.1 (withPeriod c.2) = some a ∧
        ∀ c' ∈ l, ∀ b, fit c'.1 (withPeriod c'.2) = some b → a ≤ b := by
  intro l
  induction l with
  | nil => intro a c h; cases h
  | cons d ds ih =>
    intro a c h
    rcases hf : fit d.1 (withPeriod d.2) with _ | ad <;>
      rcases hr : selectFirstMin fit ds with _ | ⟨b, c'⟩ <;>
        simp only [selectFirstMin, hf, hr] at h
    · cases h
    · obtain ⟨rfl, rfl⟩ := Prod.ext_iff.mp (Option.some_inj.mp h)
      obtain ⟨hmem, hfit, hmin⟩ := ih b c' hr
      refine ⟨List.mem_cons_of_mem _ hmem, hfit, ?_⟩
      intro x hx bx hbx
      rcases List.mem_cons.mp hx with rfl | hx'
      · rw [hf] at hbx; cases hbx
      · exact hmin x hx' bx hbx
    · obtain ⟨rfl, rfl⟩ := Prod.ext_iff.mp (Option.some_inj.mp h)
      refine ⟨List.mem_cons_self _ _, hf, ?_⟩
      intro x hx bx hbx
      rcases List.mem_cons.mp hx with rfl | hx'
      · rw [hf] at hbx; injection hbx with he; exact le_of_eq he
      · rw [selectFirstMin_none fit ds hr x hx'] at hbx; cases hbx
    · by_cases hba : b < ad
      · rw [if_pos hba] at h
        obtain ⟨rfl, rfl⟩ := Prod.ext_iff.mp (Option.some_inj.mp h)
        obtain ⟨hmem, hfit, hmin⟩ := ih b c' hr
        refine ⟨List.mem_cons_of_mem _ hmem, hfit, ?_⟩
        intro x hx bx hbx
        rcases List.mem_cons.mp hx with rfl | hx'
        · rw [hf] at hbx; injection hbx with he; rw [← he]
          exact le_of_lt hba
        · exact hmin x hx' bx hbx
      · rw [if_neg hba] at h
        obtain ⟨rfl, rfl⟩ := Prod.ext_iff.mp (Option.some_inj.mp h)
        obtain ⟨hmem', hfit', hmin'⟩ := ih b c' hr
        refine ⟨List.mem_cons_self _ _, hf, ?_⟩
        intro x hx bx hbx
        rcases List.mem_cons.mp hx with rfl | hx'
        · rw [hf] at hbx; injection hbx with he; exact le_of_eq he
        · exact le_trans (not_lt.mp hba) (hmin' x hx' bx hbx)

lemma selectFirstMin_first (fit : SarimaOrder → SeasonalOrder → Option ℚ) :
    ∀ l a c, selectFirstMin fit l = some (a, c) →
      ∃ l₁ l₂, l = l₁ ++ c :: l₂ ∧
        ∀ c' ∈ l₁, ∀ b, fit c'.1 (withPeriod c'.2) = some b → a < b := by
  intro l
  induction l with
  | nil => intro a c h; cases h
  | cons d ds ih =>
    intro a c h
    rcases hf : fit d.1 (withPeriod d.2) with _ | ad <;>
      rcases hr : selectFirstMin fit ds with _ | ⟨b, c'⟩ <;>
        simp only [selectFirstMin, hf, hr] at h
    · cases h
    · obtain ⟨rfl, rfl⟩ := Prod.ext_iff.mp (Option.some_inj.mp h)
      obtain ⟨l₁, l₂, hds, hlt⟩ := ih b c' hr
      refine ⟨d :: l₁, l₂, by rw [hds, List.cons_append], ?_⟩
      intro x hx bx hbx
      rcases List.mem_cons.mp hx with rfl | hx'
      · rw [hf] at hbx; cases hbx
      · exact hlt x hx' bx hbx
    · obtain ⟨rfl, rfl⟩ := Prod.ext_iff.mp (Option.some_inj.mp h)
      exact ⟨[], ds, rfl, by intro x hx; cases hx⟩
    · by_cases hba : b < ad
      · rw [if_pos hba] at h
        obtain ⟨rfl, rfl⟩ := Prod.ext_iff.mp (Option.some_inj.mp h)
        obtain ⟨l₁, l₂, hds, hlt⟩ := ih b c' hr
        refine ⟨d :: l₁, l₂, by rw [hds, List.cons_append], ?_⟩
        intro x hx bx hbx
        rcases List.mem_cons.mp hx with rfl | hx'
        · rw [hf] at hbx; injection hbx with he; rw [← he]; exact hba
        · exact hlt x hx' bx hbx
      · rw [if_neg hba] at h
        obtain ⟨rfl, rfl⟩ := Prod.ext_iff.mp (Option.some_inj.mp h)
        exact ⟨[], ds, rfl, by intro x hx; cases hx⟩

lemma selectFirstMin_isSome (fit : SarimaOrder → SeasonalOrder → Option ℚ)
    (l : List (SarimaOrder × SeasonalTriple)) (c : SarimaOrder × SeasonalTriple)
    (hc : c ∈ l) (hs : (fit c.1 (withPeriod c.2)).isSome) :
    ∃ a c0, selectFirstMin fit l = some (a, c0) := by
  rcases hsel : selectFirstMin fit l with _ | ⟨a, c0⟩
  · rw [selectFirstMin_none fit l hsel c hc] at hs; cases hs
  · exact ⟨a, c0, rfl⟩

lemma selectFirstMin_all_fail (fit : SarimaOrder → SeasonalOrder → Option ℚ)
    (hall : ∀ o so, fit o so = none) :
    ∀ l, selectFirstMin fit l = none := by
  intro l
  induction l with
  | nil => rfl
  | cons d ds ih => simp only [selectFirstMin, hall, ih]

lemma mem_listProd {α β : Type} (xs : List α) (ys : List β) (p : α × β) :
    p ∈ listProd xs ys ↔ p.1 ∈ xs ∧ p.2 ∈ ys := by
  rcases p with ⟨x, y⟩
  constructor
  · intro h
    rcases List.mem_flatMap.mp h with ⟨a, ha, hmem⟩
    rcases List.mem_map.mp hmem with ⟨b, hb, heq⟩
    obtain ⟨rfl, rfl⟩ := Prod.ext_iff.mp heq
    exact ⟨ha, hb⟩
  · rintro ⟨hx, hy⟩
    exact List.mem_flatMap.mpr ⟨x, hx, List.mem_map.mpr ⟨y, hy, rfl⟩⟩

lemma mem_candidates_iff (o : SarimaOrder) (sc : SeasonalTriple) :
    (o, sc) ∈ candidates ↔
      o.1 ≤ 2 ∧ o.2.1 ≤ 2 ∧ o.2.2 ≤ 2 ∧
      sc.1 ≤ 1 ∧ sc.2.1 ≤ 1 ∧ sc.2.2 ≤ 1 := by
  rcases o with ⟨p, d, q⟩
  rcases sc with ⟨P, D, Q⟩
  simp only [candidates, pdq, seasonal_pdq, mem_listProd, List.mem_range]
  omega

/-- Lexicographic strict order on `(x, y, z)` triples. -/
def lex3 (x y : ℕ × ℕ × ℕ) : Prop :=
  x.1 < y.1 ∨ (x.1 = y.1 ∧ (x.2.1 < y.2.1 ∨ (x.2.1 = y.2.1 ∧ x.2.2 < y.2.2)))

instance (x y : ℕ × ℕ × ℕ) : Decidable (lex3 x y) := by
  unfold lex3; infer_instance

/-- The enumeration order of the grid search: lexicographically ascending
over `(p, d, q)` as the outer product and `(P, D, Q)` as the inner. -/
def candLt (x y : SarimaOrder × SeasonalTriple) : Prop :=
  lex3 x.1 y.1 ∨ (x.1 = y.1 ∧ lex3 x.2 y.2)

instance (x y : SarimaOrder × SeasonalTriple) : Decidable (candLt x y) := by
  unfold candLt; infer_instance

set_option maxRecDepth 4000 in
/-- C3: the grid enumerates exactly the Cartesian product of non-seasonal
orders `(p,d,q)` each in `[0,2]` with seasonal orders `(P,D,Q)` each in
`[0,1]` — `27 × 8 = 216` candidates, seasonal period fixed at `7` — skips
every candidate whose fit raises, and whenever at least one candidate
fits, returns a pair whose AIC is globally minimal over all successfully
fitted candidates, together with that minimal AIC value. -/
theorem C3_grid_search_global_min :
    candidates.length = 216 ∧
    (∀ o : SarimaOrder, ∀ sc : SeasonalTriple, (o, sc) ∈ candidates ↔
      o.1 ≤ 2 ∧ o.2.1 ≤ 2 ∧ o.2.2 ≤ 2 ∧
      sc.1 ≤ 1 ∧ sc.2.1 ≤ 1 ∧ sc.2.2 ≤ 1) ∧
    ∀ fit : SarimaOrder → SeasonalOrder → Option ℚ,
      (∃ c ∈ candidates, (fit c.1 (withPeriod c.2)).isSome) →
      ∃ a c, gridSearch fit = ⟨some a, some c.1, some (withPeriod c.2)⟩ ∧
        c ∈ candidates ∧ (withPeriod c.2).2.2.2 = 7 ∧
        fit c.1 (withPeriod c.2) = some a ∧
        ∀ c' ∈ candidates, ∀ b, fit c'.1 (withPeriod c'.2) = some b →
          a ≤ b := by
  refine ⟨by decide, fun o sc => mem_candidates_iff o sc, ?_⟩
  rintro fit ⟨c0, hc0, hs0⟩
  obtain ⟨a, c, hsel⟩ := selectFirstMin_isSome fit candidates c0 hc0 hs0
  obtain ⟨hmem, hfit, hmin⟩ := selectFirstMin_spec fit candidates a c hsel
  refine ⟨a, c, ?_, hmem, rfl, hfit, hmin⟩
  rw [gridSearch, foldl_gridStep_eq, hsel]
  simp [applyBest, aicLtOpt]

set_option maxRecDepth 4000 in
theorem C3_witness :
    (∃ c ∈ candidates,
      (((fun _ _ => some 1) : SarimaOrder → SeasonalOrder → Option ℚ)
        c.1 (withPeriod c.2)).isSome) ∧
    (∃ a c, gridSearch (fun _ _ => some 1) =
        ⟨some a, some c.1, some (withPeriod c.2)⟩ ∧
      c ∈ candidates ∧ (withPeriod c.2).2.2.2 = 7 ∧
      ((fun _ _ => some 1) : SarimaOrder → SeasonalOrder → Option ℚ)
          c.1 (withPeriod c.2) = some a ∧
      ∀ c' ∈ candidates, ∀ b,
        ((fun _ _ => some 1) : SarimaOrder → SeasonalOrder → Option ℚ)
            c'.1 (withPeriod c'.2) = some b → a ≤ b) :=
  ⟨⟨((0, 0, 0), (0, 0, 0)), by decide, rfl⟩,
   C3_grid_search_global_min.2.2 (fun _ _ => some 1)
     ⟨((0, 0, 0), (0, 0, 0)), by decide, rfl⟩⟩

/-- C5 (code bug): the spec requires that when every one of the 216
candidate fits fails, order selection fails explicitly before the final
model fit.  The script does not: `best_order`/`best_seasonal_order` stay
`None` and flow, unguarded, straight into the final `SARIMAX`
constructor on lines 69–76.  This theorem evaluates the embedded code at
the failing input (every fit raising): the search ends with all three
tracking variables `none`, and the order pair handed to the final fit is
`(none, none)`. -/
theorem C5_none_order_reaches_final_fit :
    gridSearch (fun _ _ => none) = ⟨none, none, none⟩ ∧
    finalFitOrders (fun _ _ => none) = (none, none) := by
  have h : gridSearch (fun _ _ => (none : Option ℚ)) = ⟨none, none, none⟩ := by
    rw [gridSearch, foldl_gridStep_eq,
      selectFirstMin_all_fail _ (fun _ _ => rfl)]
    rfl
  exact ⟨h, by rw [finalFitOrders, h]⟩

set_option maxRecDepth 100000 in
/-- C9: the candidate list is lexicographically strictly ascending —
`(p,d,q)` outer, `(P,D,Q)` inner — and since an incumbent is replaced
only on strictly smaller AIC, the search returns the first candidate (in
that enumeration order) attaining the minimal AIC: every candidate
strictly earlier in the list either failed to fit or has strictly larger
AIC. -/
theorem C9_ties_go_to_first_in_lex_order :
    List.Pairwise candLt candidates ∧
    ∀ fit : SarimaOrder → SeasonalOrder → Option ℚ,
      (∃ c ∈ candidates, (fit c.1 (withPeriod c.2)).isSome) →
      ∃ a c l₁ l₂,
        gridSearch fit = ⟨some a, some c.1, some (withPeriod c.2)⟩ ∧
        candidates = l₁ ++ c :: l₂ ∧
        fit c.1 (withPeriod c.2) = some a ∧
        ∀ c' ∈ l₁, ∀ b, fit c'.1 (withPeriod c'.2) = some b → a < b := by
  refine ⟨by decide, ?_⟩
  rintro fit ⟨c0, hc0, hs0⟩
  obtain ⟨a, c, hsel⟩ := selectFirstMin_isSome fit candidates c0 hc0 hs0
  obtain ⟨l₁, l₂, hdec, hlt⟩ := selectFirstMin_first fit candidates a c hsel
  refine ⟨a, c, l₁, l₂, ?_, hdec, (selectFirstMin_spec fit candidates a c hsel).2.1, hlt⟩
  rw [gridSearch, foldl_gridStep_eq, hsel]
  simp [applyBest, aicLtOpt]

set_option maxRecDepth 4000 in
theorem C9_witness :
    (∃ c ∈ candidates,
      (((fun _ _ => some 2) : SarimaOrder → SeasonalOrder → Option ℚ)
        c.1 (withPeriod c.2)).isSome) ∧
    (∃ a c l₁ l₂,
      gridSearch (fun _ _ => some 2) =
        ⟨some a, some c.1, some (withPeriod c.2)⟩ ∧
      candidates = l₁ ++ c :: l₂ ∧
      ((fun _ _ => some 2) : SarimaOrder → SeasonalOrder → Option ℚ)
          c.1 (withPeriod c.2) = some a ∧
      ∀ c' ∈ l₁, ∀ b,
        ((fun _ _ => some 2) : SarimaOrder → SeasonalOrder → Option ℚ)
            c'.1 (withPeriod c'.2) = some b → a < b) :=
  ⟨⟨((0, 0, 0), (0, 0, 0)), by decide, rfl⟩,
   C9_ties_go_to_first_in_lex_order.2 (fun _ _ => some 2)
     ⟨((0, 0, 0), (0, 0, 0)), by decide, rfl⟩⟩

/-! ## Data loading (lines 20–24) -/

/-- The date column of the raw CSV rows; a raw row is a parsed date and
the `Actual Views` cell, `none` standing for a missing (NaN) value. -/
def rawDates (rows : List (ℤ × Option ℚ)) : List ℤ :=
  rows.map Prod.fst

/-- `df.index.min()` over the raw dates. -/
def minDate (rows : List (ℤ × Option ℚ)) : ℤ :=
  match rawDates rows with
  | [] => 0
  | x :: xs => xs.foldl min x

/-- `df.index.max()` over the raw dates. -/
def maxDate (rows : List (ℤ × Option ℚ)) : ℤ :=
  match rawDates rows with
  | [] => 0
  | x :: xs => xs.foldl max x

/-- The `Actual Views` value the loaded frame carries at date `d`: the
source value when the date is present with a number; `0` when the date
is present with NaN (`fillna(0)`, line 22) or absent from the source
(`asfreq("D", fill_value=0)`, line 23). -/
def fillCount (rows : List (ℤ × Option ℚ)) (d : ℤ) : ℚ :=
  match rows.find? (fun r => decide (r.1 = d)) with
  | some (_, some v) => v
  | some (_, none) => 0
  | none => 0

/-- Lines 20–24: sort by date, index by date, fill NaN counts with `0`,
reindex to a continuous daily frequency from the earliest to the latest
source date with `0` for synthesized dates. -/
def loadSeries (rows : List (ℤ × Option ℚ)) : List (ℤ × ℚ) :=
  if rows.isEmpty then []
  else
    (List.range ((maxDate rows - minDate rows).toNat + 1)).map
      (fun i : ℕ =>
        (minDate rows + (i : ℤ), fillCount rows (minDate rows + (i : ℤ))))

lemma foldl_min_le (xs : List ℤ) : ∀ a : ℤ, xs.foldl min a ≤ a := by
  induction xs with
  | nil => intro a; exact le_refl a
  | cons x xs ih =>
    intro a
    calc (x :: xs).foldl min a = xs.foldl min (min a x) := rfl
    _ ≤ min a x := ih (min a x)
    _ ≤ a := min_le_left a x

lemma le_foldl_max (xs : List ℤ) : ∀ a : ℤ, a ≤ xs.foldl max a := by
  induction xs with
  | nil => intro a; exact le_refl a
  | cons x xs ih =>
    intro a
    calc a ≤ max a x := le_max_left a x
    _ ≤ xs.foldl max (max a x) := ih (max a x)
    _ = (x :: xs).foldl max a := rfl

lemma minDate_le_maxDate (rows : List (ℤ × Option ℚ)) (hne : rows ≠ []) :
    minDate rows ≤ maxDate rows := by
  cases rows with
  | nil => exact absurd rfl hne
  | cons r rs =>
    have h1 : minDate (r :: rs) = (rs.map Prod.fst).foldl min r.1 := rfl
    have h2 : maxDate (r :: rs) = (rs.map Prod.fst).foldl max r.1 := rfl
    rw [h1, h2]
    exact le_trans (foldl_min_le _ r.1) (le_foldl_max _ r.1)

/-- C6: for every successfully loaded dataset (nonempty, no duplicate
dates — `asfreq` raises on duplicates), the loaded series has a gapless
daily index: consecutive dates differ by exactly one day (hence strictly
increase), the index runs over every day from the earliest to the latest
source date, counts missing on a present date and dates absent from the
source are both filled with `0`, and present numeric counts are kept.
(The series is never modified afterwards: in this pure embedding every
later stage only reads `loadSeries rows`.) -/
theorem C6_loader_gapless_filled (rows : List (ℤ × Option ℚ))
    (hne : rows ≠ []) (hnd : (rawDates rows).Nodup) :
    List.Chain' (fun p q : ℤ × ℚ => q.1 = p.1 + 1) (loadSeries rows) ∧
    (loadSeries rows).length = (maxDate rows - minDate rows).toNat + 1 ∧
    (∀ d v, (d, v) ∈ loadSeries rows →
      minDate rows ≤ d ∧ d ≤ maxDate rows) ∧
    (∀ d, minDate rows ≤ d → d ≤ maxDate rows →
      (rows.find? (fun r => decide (r.1 = d)) = none →
        (d, 0) ∈ loadSeries rows) ∧
      (∀ r, rows.find? (fun r => decide (r.1 = d)) = some r → r.2 = none →
        (d, 0) ∈ loadSeries rows) ∧
      (∀ r v, rows.find? (fun r => decide (r.1 = d)) = some r →
        r.2 = some v → (d, v) ∈ loadSeries rows)) := by
  have hE : rows.isEmpty = false := by
    cases rows with
    | nil => exact absurd rfl hne
    | cons r rs => rfl
  have hlh : minDate rows ≤ maxDate rows := minDate_le_maxDate rows hne
  have hser : loadSeries rows =
      (List.range ((maxDate rows - minDate rows).toNat + 1)).map
        (fun i : ℕ =>
          (minDate rows + (i : ℤ), fillCount rows (minDate rows + (i : ℤ)))) := by
    simp only [loadSeries, hE, Bool.false_eq_true, if_false]
  refine ⟨?_, ?_, ?_, ?_⟩
  · rw [hser, List.chain'_map]
    refine (List.chain'_range_succ _ _).mpr ?_
    intro m hm
    show minDate rows + ((m + 1 : ℕ) : ℤ) = minDate rows + (m : ℤ) + 1
    push_cast
    ring
  · rw [hser]
    simp
  · intro d v hmem
    rw [hser] at hmem
    rcases List.mem_map.mp hmem with ⟨i, himem, heq⟩
    have hiN : i < (maxDate rows - minDate rows).toNat + 1 :=
      List.mem_range.mp himem
    obtain ⟨hd, hv⟩ := Prod.ext_iff.mp heq
    simp only at hd
    omega
  · intro d hld hdh
    have hmem : (d, fillCount rows d) ∈ loadSeries rows := by
      rw [hser]
      refine List.mem_map.mpr ⟨(d - minDate rows).toNat, List.mem_range.mpr ?_, ?_⟩
      · omega
      · have hcast : minDate rows + ((d - minDate rows).toNat : ℤ) = d := by
          omega
        rw [hcast]
    refine ⟨?_, ?_, ?_⟩
    · intro hfind
      have hfc : fillCount rows d = 0 := by simp [fillCount, hfind]
      rwa [hfc] at hmem
    · rintro ⟨rd, rv⟩ hfind hr2
      obtain rfl : rv = none := hr2
      have hfc : fillCount rows d = 0 := by simp [fillCount, hfind]
      rwa [hfc] at hmem
    · rintro ⟨rd, rv⟩ v hfind hr2
      obtain rfl : rv = some v := hr2
      have hfc : fillCount rows d = v := by simp [fillCount, hfind]
      rwa [hfc] at hmem

/-- Concrete two-row dataset (a present date with a value, a gap day,
and a present date with a NaN count) used to instantiate C6. -/
def rowsWit : List (ℤ × Option ℚ) := [(0, some 5), (2, none)]

theorem C6_witness :
    (rowsWit ≠ [] ∧ (rawDates rowsWit).Nodup) ∧
    (List.Chain' (fun p q : ℤ × ℚ => q.1 = p.1 + 1) (loadSeries rowsWit) ∧
      (loadSeries rowsWit).length =
        (maxDate rowsWit - minDate rowsWit).toNat + 1 ∧
      (∀ d v, (d, v) ∈ loadSeries rowsWit →
        minDate rowsWit ≤ d ∧ d ≤ maxDate rowsWit) ∧
      (∀ d, minDate rowsWit ≤ d → d ≤ maxDate rowsWit →
        (rowsWit.find? (fun r => decide (r.1 = d)) = none →
          (d, 0) ∈ loadSeries rowsWit) ∧
        (∀ r, rowsWit.find? (fun r => decide (r.1 = d)) = some r →
          r.2 = none → (d, 0) ∈ loadSeries rowsWit) ∧
        (∀ r v, rowsWit.find? (fun r => decide (r.1 = d)) = some r →
          r.2 = some v → (d, v) ∈ loadSeries rowsWit))) :=
  ⟨⟨by simp [rowsWit], by simp [rowsWit, rawDates]⟩,
   C6_loader_gapless_filled rowsWit (by simp [rowsWit])
     (by simp [rowsWit, rawDates])⟩

/-! ## Period catalog (lines 116–130) and reporter (lines 162–193) -/

/-- The seven period names, in the catalog's insertion order
(lines 119–130). -/
def periodNames : List String :=
  ["7 Days from Now", "Current Calendar Month", "Next Calendar Month",
   "Next 3 Calendar Months", "First Half of Year", "Last Half of Year",
   "Full Year"]

/-- Line 120: `"7 Days from Now": (today, today + pd.Timedelta(days=6))`
with `today = pd.Timestamp.now().normalize()` — midnight of the run
date, hence a plain day number in this embedding. -/
def sevenDaysFromNow (today : ℤ) : ℤ × ℤ := (today, today + 6)

/-- Python 3 `round(x, 0)` on an exact value: round half to even. -/
def pyRoundHalfEven (x : ℚ) : ℤ :=
  let f := Int.floor x
  let r := x - f
  if r < 1/2 then f
  else if 1/2 < r then f + 1
  else if f % 2 = 0 then f else f + 1

/-- Python 3 `round(x, 1)` on an exact value (line 169). -/
def round1 (x : ℚ) : ℚ := (pyRoundHalfEven (x * 10) : ℚ) / 10

/-- A spreadsheet cell value: the timestamp and the missing-key default
are strings, the forecast totals numbers. -/
inductive Cell where
  | str (s : String)
  | num (q : ℚ)
  deriving DecidableEq, Repr

/-- Lines 164–169: `row = {"Timestamp": timestamp}` followed by
`row[name] = round(values["Forecast"], 1)` for each period in catalog
order; `results_dict` maps a period name to its forecast result. -/
def makeRow (timestamp : String) (results_dict : String → PeriodResult) :
    List (String × Cell) :=
  ("Timestamp", Cell.str timestamp) ::
    periodNames.map
      (fun name => (name, Cell.num (round1 (results_dict name).Forecast)))

/-- Python's `row.get(h, "")` (line 191 of the main script, line 21 of
`append_to_sheets.py`). -/
def rowGet (row : List (String × Cell)) (h : String) : Cell :=
  match row.find? (fun p => p.1 == h) with
  | some p => p.2
  | none => Cell.str ""

/-- `values = [row.get(h, "") for h in headers]` (line 191 / line 21). -/
def buildValues (headers : List String) (row : List (String × Cell)) :
    List Cell :=
  headers.map (rowGet row)

/-- What the tail of the script observably does (lines 162–193): the
record printed as one JSON line, and the cell values appended to the
sheet. -/
structure RunOutput where
  printedRow : List (String × Cell)
  appendedValues : List Cell
  deriving DecidableEq, Repr

/-- Lines 162–193: build `row` from this run's results and print it
(line 171); then rebind `row` to the parsed contents of `output.json`
(lines 186–187) — the script never writes that file — and append
`[row.get(h, "") for h in headers]` (lines 190–193). -/
def scriptTail (timestamp : String) (results_dict : String → PeriodResult)
    (outputJson : List (String × Cell)) (headers : List String) :
    RunOutput :=
  let row := makeRow timestamp results_dict
  let printed := row
  let row := outputJson
  ⟨printed, buildValues headers row⟩

/-- C7: the reporter record is flat — exactly one `Timestamp` key plus
one key per named period (seven of them, distinct), the period key
holding that period's forecast total rounded to one decimal place — and
the appended row is built by looking up every header-row column name in
the record, with the empty string substituted for any header name the
record does not contain. -/
theorem C7_reporter_row (ts : String) (r : String → PeriodResult) :
    periodNames.length = 7 ∧
    (makeRow ts r).map Prod.fst = "Timestamp" :: periodNames ∧
    ((makeRow ts r).map Prod.fst).Nodup ∧
    rowGet (makeRow ts r) "Timestamp" = Cell.str ts ∧
    (∀ nm ∈ periodNames,
      rowGet (makeRow ts r) nm = Cell.num (round1 (r nm).Forecast)) ∧
    (∀ headers, buildValues headers (makeRow ts r) =
      headers.map (fun h => rowGet (makeRow ts r) h)) ∧
    (∀ hd, hd ∉ "Timestamp" :: periodNames →
      rowGet (makeRow ts r) hd = Cell.str "") := by
  have hkeys : (makeRow ts r).map Prod.fst = "Timestamp" :: periodNames := by
    simp [makeRow, List.map_map, Function.comp_def]
  refine ⟨rfl, hkeys, ?_, ?_, ?_, fun _ => rfl, ?_⟩
  · rw [hkeys]; decide
  · simp [rowGet, makeRow, List.find?]
  · intro nm hnm
    fin_cases hnm <;> simp [rowGet, makeRow, periodNames, List.find?]
  · intro hd hnk
    have hfind : (makeRow ts r).find? (fun p => p.1 == hd) = none := by
      rw [List.find?_eq_none]
      intro p hp
      have hpk : p.1 ∈ (makeRow ts r).map Prod.fst :=
        List.mem_map_of_mem _ hp
      rw [hkeys] at hpk
      simp only [beq_eq_false_iff_ne, ne_eq, Bool.not_eq_true]
      exact fun he => hnk (he ▸ hpk)
    simp [rowGet, hfind]

theorem C7_witness :
    ("Full Year" ∈ periodNames) ∧
    rowGet (makeRow "2026-01-01 00:00:00" (fun _ => ⟨0, 55, 0, 0⟩))
        "Full Year" =
      Cell.num (round1
        ((fun _ => (⟨0, 55, 0, 0⟩ : PeriodResult)) "Full Year").Forecast) ∧
    ("Views" ∉ "Timestamp" :: periodNames) ∧
    rowGet (makeRow "2026-01-01 00:00:00" (fun _ => ⟨0, 55, 0, 0⟩))
        "Views" = Cell.str "" :=
  ⟨by decide,
   (C7_reporter_row "2026-01-01 00:00:00" (fun _ => ⟨0, 55, 0, 0⟩)).2.2.2.2.1
     "Full Year" (by decide),
   by decide,
   (C7_reporter_row "2026-01-01 00:00:00" (fun _ => ⟨0, 55, 0, 0⟩)).2.2.2.2.2.2
     "Views" (by decide)⟩

/-- C8: the appended row depends only on the contents of `output.json`
and the sheet's header row, never on the forecast results computed in
the same run: the script prints the record it computed, but the logging
step rebinds `row` to the parsed file contents before appending, so two
runs with different forecast results (and timestamps) but the same
`output.json` append identical values. -/
theorem C8_append_independent_of_results :
    (∀ ts r oj hs, (scriptTail ts r oj hs).printedRow = makeRow ts r) ∧
    (∀ ts r oj hs,
      (scriptTail ts r oj hs).appendedValues = buildValues hs oj) ∧
    ∀ ts₁ ts₂ r₁ r₂ oj hs,
      (scriptTail ts₁ r₁ oj hs).appendedValues =
        (scriptTail ts₂ r₂ oj hs).appendedValues :=
  ⟨fun _ _ _ _ => rfl, fun _ _ _ _ => rfl, fun _ _ _ _ _ _ => rfl⟩

/-- C10: for every run date, the `"7 Days from Now"` period is the
inclusive window from the run date itself to six days later: its first
day is today (not tomorrow) and it spans exactly seven calendar days. -/
theorem C10_seven_day_window (today : ℤ) :
    sevenDaysFromNow today = (today, today + 6) ∧
    (sevenDaysFromNow today).1 = today ∧
    (Finset.Icc (sevenDaysFromNow today).1
      (sevenDaysFromNow today).2).card = 7 := by
  refine ⟨rfl, rfl, ?_⟩
  rw [Int.card_Icc]
  simp only [sevenDaysFromNow]
  omega
